import Mathlib

/-!
Verification of the proxy checker (`tt.py`): a shallow embedding of its data
model and operations, with theorems settling the specified properties.

The program loads candidate proxy addresses from a text file, probes each one
with a single HTTP GET through the proxy, partitions results into working and
failed lists, prints a summary, and persists the working list.

Network I/O is modelled by an oracle: `NetOutcome` records how the single
`requests.get` call in `check_proxy` resolves (a response with some status
code, or one of the exception classes the source catches), and the measured
wall-clock duration of the attempt is a separate rational parameter.  The
thread pool of `check_all_proxies` is modelled as a small-step transition
system (`PoolStep`) whose states carry the pending, running and completed
tasks, faithful to `ThreadPoolExecutor(max_workers=...)` semantics: a task
may start only while fewer than `max_workers` tasks are running, and
`as_completed` delivers each submitted future exactly once.
-/

namespace ProxyChecker

/-- Source constant `TIMEOUT = 10` (seconds per probe). -/
def TIMEOUT : Nat := 10

/-- Source constant `MAX_WORKERS = 50` (concurrent worker threads). -/
def MAX_WORKERS : Nat := 50

/-- Source constant `TEST_URL`. -/
def TEST_URL : String := "http://www.google.com"

/-- How the single `requests.get` call inside `check_proxy` resolves: either a
response arrives carrying a status code, or the call raises one of the
exceptions the source catches (`ProxyError`, `ConnectTimeout`, `ReadTimeout`,
`ConnectionError`, or any other `Exception`). -/
inductive NetOutcome where
  | response (statusCode : Nat)
  | proxyError
  | connectTimeout
  | readTimeout
  | connectionError
  | otherException
deriving DecidableEq

/-- Python substring test `needle in hay`, on the character lists of the
strings: true exactly when `needle` occurs contiguously inside `hay`. -/
def hasSub (needle : List Char) : List Char → Bool
  | [] => needle.isEmpty
  | c :: rest => needle.isPrefixOf (c :: rest) || hasSub needle rest

/-- The test `'://' in proxy` from `check_proxy`. -/
def scheme_sep_mem (s : String) : Bool :=
  hasSub "://".data s.data

/-- URL normalization at the top of `check_proxy`: prefix `http://` when the
address contains no `://`, otherwise use the address unchanged. -/
def proxy_url (proxy : String) : String :=
  if scheme_sep_mem proxy then proxy else "http://" ++ proxy

/-- The arguments `check_proxy` passes to `requests.get`: the test URL, the
proxies dict (`http` and `https` entries), the timeout, and
`allow_redirects=True`. -/
structure RequestArgs where
  url : String
  proxiesHttp : String
  proxiesHttps : String
  timeout : Nat
  allowRedirects : Bool
deriving DecidableEq

/-- The `requests.get(TEST_URL, proxies=..., timeout=..., allow_redirects=True)`
call built by `check_proxy` for a given proxy address. -/
def request_args (test_url : String) (timeout : Nat) (proxy : String) : RequestArgs :=
  { url := test_url
    proxiesHttp := proxy_url proxy
    proxiesHttps := proxy_url proxy
    timeout := timeout
    allowRedirects := true }

/-- `ProxyChecker.check_proxy`: returns `(proxy, works, elapsed)`.  `out` is
the oracle for how the GET resolves and `elapsed` the measured duration of the
attempt; the source uses the measured duration only when a response arrived,
and reports `0` on every exception path.  The function is total: every outcome
yields a result tuple, mirroring that `check_proxy` never raises. -/
def check_proxy (proxy : String) (out : NetOutcome) (elapsed : ℚ) :
    String × Bool × ℚ :=
  match out with
  | .response code =>
      if code == 200 then (proxy, true, elapsed) else (proxy, false, elapsed)
  | .proxyError => (proxy, false, 0)
  | .connectTimeout => (proxy, false, 0)
  | .readTimeout => (proxy, false, 0)
  | .connectionError => (proxy, false, 0)
  | .otherException => (proxy, false, 0)

/-- The first component of a probe result is always the input address. -/
theorem check_proxy_fst (proxy : String) (out : NetOutcome) (elapsed : ℚ) :
    (check_proxy proxy out elapsed).1 = proxy := by
  cases out with
  | response code =>
      by_cases h : code == 200 <;> simp [check_proxy, h]
  | proxyError => rfl
  | connectTimeout => rfl
  | readTimeout => rfl
  | connectionError => rfl
  | otherException => rfl

/-- Claim C2 — when the GET completes with a response, `check_proxy` classifies
Working exactly for status code 200, any other status as Failed, and in both
cases reports the measured elapsed duration, not zero. -/
theorem response_classification (proxy : String) (code : Nat) (m : ℚ) :
    ((check_proxy proxy (.response code) m).2.1 = true ↔ code = 200)
    ∧ (check_proxy proxy (.response code) m).2.2 = m
    ∧ (check_proxy proxy (.response code) m).1 = proxy
    ∧ (m ≠ 0 → (check_proxy proxy (.response code) m).2.2 ≠ 0) := by
  by_cases h : code = 200 <;>
    simp [check_proxy, h]

/-- Witness for C2 at a concrete probe: status 200 with measured time 1. -/
theorem response_classification_witness :
    ((1 : ℚ) ≠ 0)
    ∧ (check_proxy "1.2.3.4:8080" (.response 200) 1).2.2 ≠ 0 := by
  refine ⟨by norm_num, ?_⟩
  exact (response_classification "1.2.3.4:8080" 200 1).2.2.2 (by norm_num)

/-- Claim C3 — every exception path (proxy error, connect timeout, read
timeout, connection error, any other exception) yields a Failed result with
elapsed time zero; being a total function of the outcome, `check_proxy` never
propagates a fault to its caller. -/
theorem fault_paths_failed_zero (proxy : String) (m : ℚ) :
    check_proxy proxy .proxyError m = (proxy, false, 0)
    ∧ check_proxy proxy .connectTimeout m = (proxy, false, 0)
    ∧ check_proxy proxy .readTimeout m = (proxy, false, 0)
    ∧ check_proxy proxy .connectionError m = (proxy, false, 0)
    ∧ check_proxy proxy .otherException m = (proxy, false, 0) := by
  exact ⟨rfl, rfl, rfl, rfl, rfl⟩

/-- `hasSub` detects exactly the contiguous occurrences of the needle: it
agrees with the existence of a decomposition `hay = a ++ needle ++ b`. -/
theorem hasSub_iff (needle hay : List Char) :
    hasSub needle hay = true ↔ ∃ a b, hay = a ++ needle ++ b := by
  induction hay with
  | nil =>
      simp only [hasSub, List.isEmpty_iff]
      constructor
      · intro h
        exact ⟨[], [], by simp [h]⟩
      · rintro ⟨a, b, hab⟩
        rcases List.append_eq_nil.mp hab.symm with ⟨h1, h2⟩
        exact (List.append_eq_nil.mp h1).2
  | cons c rest ih =>
      simp only [hasSub, Bool.or_eq_true, ih, List.isPrefixOf_iff_prefix]
      constructor
      · rintro (⟨t, ht⟩ | ⟨a, b, hab⟩)
        · exact ⟨[], t, by simp [← ht]⟩
        · exact ⟨c :: a, b, by simp [hab]⟩
      · rintro ⟨a, b, hab⟩
        cases a with
        | nil =>
            left
            exact ⟨b, by simpa using hab.symm⟩
        | cons a' as =>
            right
            rw [List.cons_append, List.cons_append] at hab
            exact ⟨as, b, (List.cons.injEq _ _ _ _ ▸ hab).2⟩

/-- Prefixing with a scheme strictly lengthens the address, so the two
branches of the normalization never coincide. -/
theorem http_prepend_ne (s : String) : "http://" ++ s ≠ s := by
  intro h
  have hl := congrArg String.length h
  rw [String.length_append] at hl
  have h7 : ("http://" : String).length = 7 := rfl
  omega

/-- Claim C8 — `check_proxy` builds the proxy URL by prefixing `http://`
exactly when the address contains no `://` substring, and the single GET uses
that same URL for both the `http` and `https` traffic classes, follows
redirects, and honors the configured timeout. -/
theorem request_construction (proxy test_url : String) (t : Nat) :
    (request_args test_url t proxy).proxiesHttp
        = (request_args test_url t proxy).proxiesHttps
    ∧ (request_args test_url t proxy).url = test_url
    ∧ (request_args test_url t proxy).timeout = t
    ∧ (request_args test_url t proxy).allowRedirects = true
    ∧ ((request_args test_url t proxy).proxiesHttp = proxy
        ↔ ∃ a b, proxy.data = a ++ "://".data ++ b)
    ∧ ((request_args test_url t proxy).proxiesHttp = "http://" ++ proxy
        ↔ ¬ ∃ a b, proxy.data = a ++ "://".data ++ b) := by
  refine ⟨rfl, rfl, rfl, rfl, ?_, ?_⟩ <;>
    simp only [request_args, proxy_url, scheme_sep_mem]
  · by_cases h : hasSub "://".data proxy.data = true
    · simp only [h, if_true]
      simpa using (hasSub_iff "://".data proxy.data).mp h
    · simp only [Bool.not_eq_true] at h
      simp only [h, Bool.false_eq_true, if_false]
      constructor
      · intro hc
        exact absurd hc (http_prepend_ne proxy)
      · intro hex
        exact absurd ((hasSub_iff "://".data proxy.data).mpr hex)
          (by simp [h])
  · by_cases h : hasSub "://".data proxy.data = true
    · simp only [h, if_true]
      constructor
      · intro hc
        exact absurd hc.symm (http_prepend_ne proxy)
      · intro hnex
        exact absurd ((hasSub_iff "://".data proxy.data).mp h) hnex
    · simp only [Bool.not_eq_true] at h
      simp only [h, Bool.false_eq_true, if_false, true_iff]
      intro hex
      exact absurd ((hasSub_iff "://".data proxy.data).mpr hex) (by simp [h])

/-- Claim C10 — `check_proxy` returns the input address itself, unchanged, as
the first component of its result; when normalization actually changes the
address (no `://` present), the returned address differs from the normalized
routing URL. -/
theorem result_address_unchanged (proxy : String) (out : NetOutcome) (m : ℚ) :
    (check_proxy proxy out m).1 = proxy
    ∧ (proxy_url proxy ≠ proxy → (check_proxy proxy out m).1 ≠ proxy_url proxy) := by
  refine ⟨check_proxy_fst proxy out m, ?_⟩
  intro hne hc
  rw [check_proxy_fst proxy out m] at hc
  exact hne hc.symm

/-- Witness for C10 at a bare `host:port` address, where the normalized URL
really differs from the address. -/
theorem result_address_unchanged_witness :
    proxy_url "1.2.3.4:8080" ≠ "1.2.3.4:8080"
    ∧ (check_proxy "1.2.3.4:8080" .proxyError 0).1 ≠ proxy_url "1.2.3.4:8080" := by
  have h : proxy_url "1.2.3.4:8080" ≠ "1.2.3.4:8080" := by decide
  exact ⟨h, (result_address_unchanged "1.2.3.4:8080" .proxyError 0).2 h⟩

/-- The `for future in as_completed(...)` loop body of `check_all_proxies`:
each arriving result `(proxy, is_working, response_time)` is appended to the
working list when `is_working` holds and to the failed list otherwise. -/
def check_all_loop (acc_w acc_f : List String) :
    List (String × Bool × ℚ) → List String × List String
  | [] => (acc_w, acc_f)
  | r :: rest =>
      if r.2.1 = true then check_all_loop (acc_w ++ [r.1]) acc_f rest
      else check_all_loop acc_w (acc_f ++ [r.1]) rest

/-- `ProxyChecker.check_all_proxies`, abstracted over the completion-order
stream of probe results: partitions the stream into
`(working_proxies, failed_proxies)` starting from the empty lists the
constructor initialises. -/
def check_all_proxies (results : List (String × Bool × ℚ)) :
    List String × List String :=
  check_all_loop [] [] results

/-- Unfolding of the aggregation loop: the working list collects exactly the
addresses of the results flagged working, in stream order, appended after the
accumulator; symmetrically for the failed list. -/
theorem check_all_loop_eq (results : List (String × Bool × ℚ))
    (acc_w acc_f : List String) :
    check_all_loop acc_w acc_f results
      = (acc_w ++ (results.filter (fun r => r.2.1)).map (fun r => r.1),
         acc_f ++ (results.filter (fun r => !r.2.1)).map (fun r => r.1)) := by
  induction results generalizing acc_w acc_f with
  | nil => simp [check_all_loop]
  | cons r rest ih =>
      by_cases h : r.2.1 = true <;>
        simp [check_all_loop, h, ih, List.filter_cons]

/-- `check_all_proxies` in closed form. -/
theorem check_all_proxies_eq (results : List (String × Bool × ℚ)) :
    check_all_proxies results
      = ((results.filter (fun r => r.2.1)).map (fun r => r.1),
         (results.filter (fun r => !r.2.1)).map (fun r => r.1)) := by
  simp [check_all_proxies, check_all_loop_eq]

/-- The two output lists together are a permutation of the addresses of the
incoming results: every result lands in exactly one list. -/
theorem check_all_split (results : List (String × Bool × ℚ)) :
    List.Perm
      ((check_all_proxies results).1 ++ (check_all_proxies results).2)
      (results.map (fun r => r.1)) := by
  rw [check_all_proxies_eq]
  have hp := List.filter_append_perm (fun r => r.2.1) results
  simpa [List.map_append] using hp.map (fun r => r.1)

/-- Counting consequence: the sizes of the two output lists add up to the
number of results consumed. -/
theorem check_all_lengths (results : List (String × Bool × ℚ)) :
    (check_all_proxies results).1.length + (check_all_proxies results).2.length
      = results.length := by
  have h := (check_all_split results).length_eq
  simpa [List.length_append] using h

/-- Every address in the working output comes from a result classified
working. -/
theorem working_mem_sound (results : List (String × Bool × ℚ)) (s : String) :
    s ∈ (check_all_proxies results).1 → ∃ m : ℚ, (s, true, m) ∈ results := by
  rw [check_all_proxies_eq]
  intro hs
  rcases List.mem_map.mp hs with ⟨r, hr, hrs⟩
  rcases List.mem_filter.mp hr with ⟨hmem, hflag⟩
  rcases r with ⟨a, b, c⟩
  simp only at hrs hflag
  subst hrs
  subst hflag
  exact ⟨c, hmem⟩

/-- Observable outcome of `save_working_proxies`: the early return with the
nothing-to-save notice, a successful write of the file contents, or a write
failure caught by the `except` arm and logged. -/
inductive SaveOutcome where
  | skippedEmpty
  | written (contents : List String)
  | writeFailedLogged
deriving DecidableEq

/-- `ProxyChecker.save_working_proxies`: skip and report when the working list
is empty; otherwise write the working addresses one per line, and on an I/O
fault log the error and return normally.  `write_ok` is the oracle for whether
the filesystem write succeeds.  The function is total, mirroring that every
failure path is caught. -/
def save_working_proxies (working : List String) ( write_ok : Bool) :
    SaveOutcome :=
  if working.isEmpty then .skippedEmpty
  else if write_ok then .written working
  else .writeFailedLogged

/-- Claim C5 — the output file is written exactly when the working list is
non-empty and the write succeeds, and then contains exactly the collected
working addresses in order; an empty list skips the write with a notice; a
write fault is logged and does not escape; a write is only ever attempted for
a non-empty working list; and every address the run can write comes from a
result classified working. -/
theorem save_behaviour (working : List String) ( write_ok : Bool)
    (results : List (String × Bool × ℚ)) :
    (save_working_proxies working write_ok = .written working
        ↔ working ≠ [] ∧ write_ok = true)
    ∧ (working = [] → save_working_proxies working write_ok = .skippedEmpty)
    ∧ (∀ c, save_working_proxies working write_ok = .written c → c = working)
    ∧ (working ≠ [] → write_ok = false →
        save_working_proxies working write_ok = .writeFailedLogged)
    ∧ (save_working_proxies working write_ok ≠ .skippedEmpty ↔ working ≠ [])
    ∧ (∀ s ∈ (check_all_proxies results).1, ∃ m : ℚ, (s, true, m) ∈ results) := by
  refine ⟨?_, ?_, ?_, ?_, ?_, fun s hs => working_mem_sound results s hs⟩
  · constructor
    · intro h
      by_cases he : working.isEmpty
      · simp [save_working_proxies, he] at h
      · by_cases hw : write_ok
        · exact ⟨by simpa [List.isEmpty_iff] using he, hw⟩
        · simp [save_working_proxies, he, hw] at h
    · rintro ⟨hne, hw⟩
      have he : working.isEmpty = false := by
        simpa [List.isEmpty_iff] using hne
      simp [save_working_proxies, he, hw]
  · intro h
    simp [save_working_proxies, h]
  · intro c hc
    by_cases he : working.isEmpty
    · simp [save_working_proxies, he] at hc
    · by_cases hw : write_ok
      · simp [save_working_proxies, he, hw] at hc
        exact hc.symm
      · simp [save_working_proxies, he, hw] at hc
  · intro hne hw
    have he : working.isEmpty = false := by
      simpa [List.isEmpty_iff] using hne
    simp [save_working_proxies, he, hw]
  · by_cases he : working.isEmpty
    · simp [save_working_proxies, he, List.isEmpty_iff.mp he]
    · have hne : working ≠ [] := by simpa [List.isEmpty_iff] using he
      by_cases hw : write_ok <;> simp [save_working_proxies, he, hw, hne]

/-- Witness for C5 at a singleton working list with a succeeding write. -/
theorem save_behaviour_witness :
    (["1.2.3.4:8080"] ≠ ([] : List String) ∧ true = true)
    ∧ save_working_proxies ["1.2.3.4:8080"] true = .written ["1.2.3.4:8080"] := by
  have h := (save_behaviour ["1.2.3.4:8080"] true []).1
  exact ⟨⟨by decide, rfl⟩, h.mpr ⟨by decide, rfl⟩⟩

/-- How the attempt to open and read the input file resolves: the file is
found and yields its lines, it is missing (`FileNotFoundError`), or some other
read error occurs (the catch-all `except Exception`). -/
inductive FileRead where
  | ok (lines : List String)
  | notFound
  | otherError

/-- Python `str.strip()`: remove whitespace characters from both ends of the
string. -/
def py_strip (s : String) : String :=
  ⟨((s.data.dropWhile Char.isWhitespace).reverse.dropWhile Char.isWhitespace).reverse⟩

/-- The list comprehension in `load_proxies`:
`[line.strip() for line in f if line.strip()]` — each line is stripped and the
blank ones are dropped (a stripped line is falsy exactly when empty),
preserving order. -/
def strip_lines (lines : List String) : List String :=
  (lines.map py_strip).filter (fun s => decide (s ≠ ""))

/-- `ProxyChecker.load_proxies`: on a readable file, the stripped non-blank
lines; on a missing file or any other read error, a diagnostic is printed and
the process exits with status 1 (modelled as the exceptional exit code). -/
def load_proxies : FileRead → Except Nat (List String)
  | .ok lines => .ok (strip_lines lines)
  | .notFound => .error 1
  | .otherError => .error 1

/-- Observable result of one whole `run` invocation. `exitCode` is the status
of a premature `sys.exit`; `reportedTotal` the candidate count printed by
`load_proxies`; `summaryPrinted` whether the final summary block of
`check_all_proxies` ran; `rateDivisor` the divisor used by the success-rate
computation when it executed; `outputWritten` the contents of the output file
when one was created. -/
structure RunResult where
  exitCode : Option Nat
  reportedTotal : Option Nat
  summaryPrinted : Bool
  rateDivisor : Option Nat
  working : List String
  failed : List String
  outputWritten : Option (List String)
deriving DecidableEq

/-- `ProxyChecker.run`: load, return early (after the loaded-count report)
when no candidates were found, otherwise probe everything and save the working
list.  `results` stands for the completion-order stream of probe results the
dispatcher delivers, and `write_ok` for the output write succeeding. -/
def run (file : FileRead) (results : List (String × Bool × ℚ))
    ( write_ok : Bool) : RunResult :=
  match load_proxies file with
  | .error n =>
      { exitCode := some n, reportedTotal := none, summaryPrinted := false,
        rateDivisor := none, working := [], failed := [], outputWritten := none }
  | .ok proxies =>
      if proxies.isEmpty then
        { exitCode := none, reportedTotal := some proxies.length,
          summaryPrinted := false, rateDivisor := none,
          working := [], failed := [], outputWritten := none }
      else
        { exitCode := none, reportedTotal := some proxies.length,
          summaryPrinted := true, rateDivisor := some proxies.length,
          working := (check_all_proxies results).1,
          failed := (check_all_proxies results).2,
          outputWritten :=
            match save_working_proxies (check_all_proxies results).1 write_ok with
            | .written c => some c
            | _ => none }

/-- Claim C6 — `load_proxies` yields the stripped lines of the file with the
blank ones removed, in file order (an order-preserving subsequence of the
stripped lines, containing every non-blank stripped line); and a missing file
or any other read error makes the run exit with status 1 before any
processing: no probes, no summary, no output file. -/
theorem load_contract (lines : List String)
    (results : List (String × Bool × ℚ)) ( write_ok : Bool) :
    (∀ s ∈ strip_lines lines, (∃ l ∈ lines, s = py_strip l) ∧ s ≠ "")
    ∧ List.Sublist (strip_lines lines) (lines.map py_strip)
    ∧ (∀ l ∈ lines, py_strip l ≠ "" → py_strip l ∈ strip_lines lines)
    ∧ (run .notFound results write_ok).exitCode = some 1
    ∧ (run .notFound results write_ok).outputWritten = none
    ∧ (run .notFound results write_ok).working = []
    ∧ (run .notFound results write_ok).failed = []
    ∧ (run .notFound results write_ok).summaryPrinted = false
    ∧ (run .otherError results write_ok).exitCode = some 1
    ∧ (run .otherError results write_ok).outputWritten = none := by
  refine ⟨?_, ?_, ?_, rfl, rfl, rfl, rfl, rfl, rfl, rfl⟩
  · intro s hs
    rcases List.mem_filter.mp hs with ⟨hmem, hne⟩
    rcases List.mem_map.mp hmem with ⟨l, hl, hls⟩
    exact ⟨⟨l, hl, hls.symm⟩, of_decide_eq_true hne⟩
  · exact List.filter_sublist _
  · intro l hl hne
    exact List.mem_filter.mpr
      ⟨List.mem_map_of_mem py_strip hl, decide_eq_true hne⟩

/-- Witness for C6 on a concrete two-line file with surrounding whitespace and
a blank line. -/
theorem load_contract_witness :
    (" 1.2.3.4:8080 " ∈ [" 1.2.3.4:8080 ", "  "]
        ∧ py_strip " 1.2.3.4:8080 " ≠ "")
    ∧ py_strip " 1.2.3.4:8080 " ∈ strip_lines [" 1.2.3.4:8080 ", "  "] := by
  refine ⟨⟨by decide, by decide⟩, ?_⟩
  exact (load_contract [" 1.2.3.4:8080 ", "  "] [] true).2.2.1
    " 1.2.3.4:8080 " (by decide) (by decide)

/-- Claim C4 — when the file exists but holds no non-blank line, the run
reports a total of zero candidates, writes no output file, never reaches the
success-rate division, and terminates normally. -/
theorem empty_list_run (lines : List String)
    (results : List (String × Bool × ℚ)) ( write_ok : Bool) :
    strip_lines lines = [] →
      (run (.ok lines) results write_ok).reportedTotal = some 0
      ∧ (run (.ok lines) results write_ok).outputWritten = none
      ∧ (run (.ok lines) results write_ok).rateDivisor = none
      ∧ (run (.ok lines) results write_ok).exitCode = none
      ∧ (run (.ok lines) results write_ok).working = []
      ∧ (run (.ok lines) results write_ok).failed = [] := by
  intro h
  simp [run, load_proxies, h]

/-- Witness for C4 on a file of one blank and one whitespace-only line. -/
theorem empty_list_run_witness :
    strip_lines ["", "   "] = []
    ∧ (run (.ok ["", "   "]) [] true).reportedTotal = some 0 := by
  refine ⟨by decide, ?_⟩
  exact (empty_list_run ["", "   "] [] true (by decide)).1

/-- Claim C7 — whenever the success-rate division at the end of
`check_all_proxies` executes, its divisor `total_proxies` is positive: `run`
only enters the probing phase on a non-empty candidate list, so the
division-by-zero case is unreachable. -/
theorem rate_divisor_pos (file : FileRead)
    (results : List (String × Bool × ℚ)) ( write_ok : Bool) (d : Nat) :
    (run file results write_ok).rateDivisor = some d → 0 < d := by
  intro h
  cases file with
  | ok lines =>
      by_cases he : (strip_lines lines).isEmpty
      · simp [run, load_proxies, he] at h
      · simp [run, load_proxies, he] at h
        have : strip_lines lines ≠ [] := by simpa [List.isEmpty_iff] using he
        have hpos : 0 < (strip_lines lines).length := List.length_pos.mpr this
        omega
  | notFound => simp [run, load_proxies] at h
  | otherError => simp [run, load_proxies] at h

/-- Witness for C7 on a one-candidate run, whose divisor is 1. -/
theorem rate_divisor_pos_witness :
    (run (.ok ["1.2.3.4:8080"]) [] true).rateDivisor = some 1 ∧ 0 < 1 := by
  refine ⟨by decide, ?_⟩
  exact rate_divisor_pos (.ok ["1.2.3.4:8080"]) [] true 1 (by decide)

/-- State of the `ThreadPoolExecutor` dispatch in `check_all_proxies`:
futures submitted but not yet picked up by a worker, probes currently
executing, and completed results in the order `as_completed` delivered
them. -/
structure PoolState where
  pending : List String
  running : List String
  done : List (String × Bool × ℚ)

/-- Initial dispatcher state: `executor.submit` is called for every candidate
up front, so all candidates are pending, none running, none done. -/
def init_pool (proxies : List String) : PoolState :=
  { pending := proxies, running := [], done := [] }

/-- Small-step semantics of the bounded pool.  A pending probe may start only
while fewer than `mw` probes are running (`ThreadPoolExecutor(max_workers=mw)`
never runs more than `mw` worker threads); a running probe may finish with any
network outcome `o` and measured duration `m`, delivering its
`check_proxy` result to the completion stream. -/
inductive PoolStep (mw : Nat) : PoolState → PoolState → Prop where
  | start (p : String) (rest running : List String)
      (d : List (String × Bool × ℚ)) :
      running.length < mw →
      PoolStep mw ⟨p :: rest, running, d⟩ ⟨rest, p :: running, d⟩
  | finish (pending r₁ r₂ : List String) (t : String)
      (d : List (String × Bool × ℚ)) (o : NetOutcome) (m : ℚ) :
      PoolStep mw ⟨pending, r₁ ++ t :: r₂, d⟩
        ⟨pending, r₁ ++ r₂, d ++ [check_proxy t o m]⟩

/-- Reachability of a pool state from the initial dispatch of a candidate
list. -/
def PoolReach (mw : Nat) (proxies : List String) (s : PoolState) : Prop :=
  Relation.ReflTransGen (PoolStep mw) (init_pool proxies) s

/-- All candidate addresses held by a pool state, in whatever phase. -/
def pool_tasks (s : PoolState) : List String :=
  s.pending ++ s.running ++ s.done.map (fun r => r.1)

/-- One pool step never pushes the number of running probes above the worker
bound. -/
theorem pool_step_running_le {mw : Nat} {s t : PoolState}
    (h : PoolStep mw s t) (hs : s.running.length ≤ mw) :
    t.running.length ≤ mw := by
  cases h with
  | start p rest running d hlt =>
      simpa using hlt
  | finish pending r₁ r₂ t' d o m =>
      simp only [List.length_append, List.length_cons] at hs ⊢
      omega

/-- One pool step permutes, but never drops or duplicates, the candidate
addresses. -/
theorem pool_step_perm {mw : Nat} {s t : PoolState} (h : PoolStep mw s t) :
    List.Perm (pool_tasks t) (pool_tasks s) := by
  cases h with
  | start p rest running d hlt =>
      simp only [pool_tasks, List.append_assoc, List.cons_append]
      exact List.perm_middle
  | finish pending r₁ r₂ t' d o m =>
      simp only [pool_tasks, List.map_append, List.map_cons, List.map_nil,
        check_proxy_fst, List.append_assoc, List.cons_append]
      refine List.Perm.append_left pending ?_
      refine List.Perm.append_left r₁ ?_
      rw [← List.append_assoc]
      exact List.perm_append_singleton _ _

/-- In every reachable pool state the candidate addresses across the three
phases are a permutation of the submitted list. -/
theorem pool_reach_perm (mw : Nat) (proxies : List String) (s : PoolState)
    (h : PoolReach mw proxies s) : List.Perm (pool_tasks s) proxies := by
  induction h with
  | refl => simp [pool_tasks, init_pool]
  | tail hr hstep ih => exact (pool_step_perm hstep).trans ih

/-- Claim C9 — the default worker count is 50, all candidates are submitted
up front, and in every state reachable from the initial dispatch at most the
configured worker count of probes is running at once. -/
theorem concurrency_bound :
    MAX_WORKERS = 50
    ∧ (∀ proxies : List String,
        (init_pool proxies).pending = proxies ∧ (init_pool proxies).running = [])
    ∧ ∀ (mw : Nat) (proxies : List String) (s : PoolState),
        PoolReach mw proxies s → s.running.length ≤ mw := by
  refine ⟨rfl, fun proxies => ⟨rfl, rfl⟩, ?_⟩
  intro mw proxies s h
  induction h with
  | refl => simp [init_pool]
  | tail hr hstep ih => exact pool_step_running_le hstep ih

/-- Witness for C9: after starting the only probe of a one-candidate dispatch,
at most 50 probes are in flight. -/
theorem concurrency_bound_witness :
    (PoolState.mk [] ["1.2.3.4:8080"] []).running.length ≤ 50 := by
  have hstep : PoolStep 50 (init_pool ["1.2.3.4:8080"])
      (PoolState.mk [] ["1.2.3.4:8080"] []) :=
    PoolStep.start "1.2.3.4:8080" [] [] [] (by norm_num)
  exact concurrency_bound.2.2 50 ["1.2.3.4:8080"] _
    (Relation.ReflTransGen.tail Relation.ReflTransGen.refl hstep)

/-- Claim C1 — once the dispatcher has drained (nothing pending, nothing
running), the completion stream holds exactly one result per loaded address
(its addresses are a permutation of the candidate list), the aggregation puts
every result in exactly one of the two lists, and the lengths of
`working_proxies` and `failed_proxies` add up to `total_proxies`. -/
theorem candidates_one_result (mw : Nat) (proxies : List String)
    (s : PoolState) (h : PoolReach mw proxies s)
    (hp : s.pending = []) (hr : s.running = []) :
    List.Perm (s.done.map (fun r => r.1)) proxies
    ∧ List.Perm ((check_all_proxies s.done).1 ++ (check_all_proxies s.done).2)
        (s.done.map (fun r => r.1))
    ∧ (check_all_proxies s.done).1.length + (check_all_proxies s.done).2.length
        = proxies.length := by
  have hperm := pool_reach_perm mw proxies s h
  rw [pool_tasks, hp, hr] at hperm
  simp only [List.nil_append] at hperm
  refine ⟨hperm, check_all_split s.done, ?_⟩
  have hlen := check_all_lengths s.done
  have hdl : s.done.length = proxies.length := by
    have := hperm.length_eq
    simpa using this
  omega

/-- Witness for C1: a full two-step trace (start, then finish with HTTP 200)
of a one-candidate dispatch, whose terminal stream partitions into lists of
total length one. -/
theorem candidates_one_result_witness :
    (check_all_proxies [("1.2.3.4:8080", true, (1 : ℚ))]).1.length
      + (check_all_proxies [("1.2.3.4:8080", true, (1 : ℚ))]).2.length = 1 := by
  have hstep1 : PoolStep 50 (init_pool ["1.2.3.4:8080"])
      (PoolState.mk [] ["1.2.3.4:8080"] []) :=
    PoolStep.start "1.2.3.4:8080" [] [] [] (by norm_num)
  have hstep2 : PoolStep 50 (PoolState.mk [] ["1.2.3.4:8080"] [])
      (PoolState.mk [] [] [("1.2.3.4:8080", true, (1 : ℚ))]) := by
    have h : PoolStep 50 (PoolState.mk [] ([] ++ "1.2.3.4:8080" :: []) [])
        (PoolState.mk [] ([] ++ [])
          ([] ++ [check_proxy "1.2.3.4:8080" (.response 200) 1])) :=
      PoolStep.finish [] [] [] "1.2.3.4:8080" [] (.response 200) 1
    simpa [check_proxy] using h
  have hreach : PoolReach 50 ["1.2.3.4:8080"]
      (PoolState.mk [] [] [("1.2.3.4:8080", true, (1 : ℚ))]) :=
    Relation.ReflTransGen.tail
      (Relation.ReflTransGen.tail Relation.ReflTransGen.refl hstep1) hstep2
  have h := candidates_one_result 50 ["1.2.3.4:8080"] _ hreach rfl rfl
  simpa using h.2.2

end ProxyChecker
